import Mathlib

/-!
Shallow embedding of the Nova Act script runner (src/src/runner.py and
src/src/cli.py) and proofs of the specification's claims about it.

The runner's interaction with the operating system (directory listing,
environment, process spawning, file reads, the Python `compile` builtin) is
modelled by an explicit `World` record of oracles; the control flow of
`execute_script`, `validate_script`, `list_scripts`, `script_exists`,
`get_script_path` and `parse_env_vars` is translated branch for branch
from the Python source.
-/

namespace NovaAct

/-! ## Environment maps (Python `dict[str, str]`) -/

/-- A Python string-to-string dict, as an association list.  `envInsert`
mirrors `d[k] = v`: an existing key keeps its position and gets the new
value, a new key is appended. -/
abbrev EnvMap := List (String × String)

def envLookup (m : EnvMap) (k : String) : Option String :=
  (m.find? (fun p => p.1 == k)).map (·.2)

def envInsert : EnvMap → String → String → EnvMap
  | [], k, v => [(k, v)]
  | p :: m, k, v => if p.1 == k then (k, v) :: m else p :: envInsert m k v

/-- The binding a key gets when an override map is laid over an inherited
map: the override's value when the override binds the key, else the
inherited one. -/
def overrideWins (override inherited : Option String) : Option String :=
  match override with
  | some v => some v
  | none => inherited

/-- `base.update(overrides)` from Python: every pair of `overrides` is
inserted into `base`, later pairs last. -/
def envUpdate (base overrides : EnvMap) : EnvMap :=
  overrides.foldl (fun acc p => envInsert acc p.1 p.2) base

/-! ## Paths (`pathlib.Path` joining, `src/src/runner.py` line 45) -/

/-- Whether a path string is absolute (`PurePosixPath` semantics). -/
def isAbsStr (s : String) : Bool :=
  match s.data with
  | '/' :: _ => true
  | _ => false

/-- `Path.__truediv__`: joining with an absolute child replaces the base
entirely; otherwise the child is appended after a separator. -/
def pathJoinStr (base child : String) : String :=
  if isAbsStr child then child else base ++ "/" ++ child

/-- `get_script_path`: `self.scripts_dir / f"{script_name}.py"`. -/
def get_script_path (scriptsDir scriptName : String) : String :=
  pathJoinStr scriptsDir (scriptName ++ ".py")

/-- Split a character list at `/`, keeping the pieces. -/
def splitSlashAux (cur : List Char) : List Char → List (List Char)
  | [] => [cur.reverse]
  | c :: cs =>
    if c = '/' then cur.reverse :: splitSlashAux [] cs
    else splitSlashAux (c :: cur) cs

/-- The non-empty segments of a path string. -/
def pathSegments (s : String) : List (List Char) :=
  (splitSlashAux [] s.data).filter (· ≠ [])

/-- POSIX resolution of `.` and `..` segments (`..` at the root stays at
the root, as `realpath` does). -/
def resolveSegs (segs : List (List Char)) : List (List Char) :=
  segs.foldl
    (fun acc seg =>
      if seg = ['.'] then acc
      else if seg = ['.', '.'] then acc.dropLast
      else acc ++ [seg])
    []

/-- After resolving `.` and `..`, does `p` still lie below `root`? -/
def staysInsideRoot (root p : String) : Bool :=
  (resolveSegs (pathSegments root)).isPrefixOf (resolveSegs (pathSegments p))

/-! ## Filenames: `*.py` glob, `__` prefix, `Path.stem` -/

/-- `fnmatch` of the pattern `*.py`: the name ends in `.py` (`*` may match
the empty string, so the bare name `.py` matches too). -/
def endsWithPy (cs : List Char) : Bool :=
  match cs.reverse with
  | 'y' :: 'p' :: '.' :: _ => true
  | _ => false

/-- `name.startswith("__")`. -/
def startsWithDunder (s : String) : Bool :=
  match s.data with
  | '_' :: '_' :: _ => true
  | _ => false

/-- Index of the last `.` in a character list, if any. -/
def lastDotIdx : List Char → Option Nat
  | [] => none
  | c :: cs =>
    match lastDotIdx cs with
    | some i => some (i + 1)
    | none => if c = '.' then some 0 else none

/-- `PurePath.stem`: the name without its suffix, where the suffix is
`name[i:]` for `i` the index of the last dot, provided `0 < i < len - 1`;
otherwise the whole name (so the stem of `".py"` is `".py"` itself). -/
def stemChars (cs : List Char) : List Char :=
  match lastDotIdx cs with
  | some i => if 0 < i ∧ i < cs.length - 1 then cs.take i else cs
  | none => cs

def pyStem (s : String) : String := String.mk (stemChars s.data)

/-! ## The world of oracles -/

/-- One entry of the scripts directory. -/
structure DirEntry where
  name : String
  isFile : Bool
  deriving DecidableEq

/-- What `subprocess.run` is asked to do (runner.py lines 95-103). -/
structure SpawnSpec where
  cmd : List String
  cwd : String
  env : EnvMap
  timeoutSeconds : Nat
  deriving DecidableEq

/-- How the spawned child behaves: a normal exit with its streams, a
`TimeoutExpired`, or some other raised exception. -/
inductive SpawnOutcome where
  | completed (returncode : Int) (stdout stderr : String)
  | timedOut
  | raised (msg : String)
  deriving DecidableEq

/-- Outcome of `open(path).read()`. -/
inductive ReadOutcome where
  | ok (source : String)
  | ioError (msg : String)
  deriving DecidableEq

/-- Outcome of the `compile(source, path, 'exec')` builtin on a source
text: success, a `SyntaxError` carrying its diagnostic `str(e)`, or some
other exception. -/
inductive ParseOutcome where
  | ok
  | syntaxError (diag : String)
  | otherError (msg : String)
  deriving DecidableEq

/-- The runner's configuration and its view of the operating system. -/
structure World where
  scriptsDir : String
  scriptsDirExists : Bool
  entries : List DirEntry
  osEnviron : EnvMap
  pythonExe : String
  spawn : SpawnSpec → SpawnOutcome
  readFile : String → ReadOutcome
  parse : String → ParseOutcome

/-! ## The runner (`src/src/runner.py`) -/

/-- `ScriptResult` (runner.py lines 13-19). -/
structure ScriptResult where
  success : Bool
  output : String
  error : Option String
  exit_code : Int
  deriving DecidableEq

/-- Which infrastructure error, if any, a branch of `execute_script`
classifies its result as. -/
inductive InfraKind where
  | notFound
  | preconditionFailed
  | timeout
  | spawnFailed
  deriving DecidableEq

/-- `execute_script`'s observable behaviour: its returned result plus the
spawn call it made, if any. -/
structure ExecTrace where
  result : ScriptResult
  spawned : Option SpawnSpec
  infra : Option InfraKind

/-- `validate_script`'s observable behaviour: its returned result plus
whether the source file was opened and read. -/
structure ValidateTrace where
  result : ScriptResult
  readAttempted : Bool

/-- `list_scripts` (runner.py lines 28-36): empty when the directory is
missing, else the stems of the regular `*.py` entries whose name does not
start with `__`. -/
def list_scripts (w : World) : List String :=
  if w.scriptsDirExists = false then []
  else
    (w.entries.filter
      (fun e => endsWithPy e.name.data && e.isFile && !startsWithDunder e.name)).map
      (fun e => pyStem e.name)

/-- `script_exists` (runner.py lines 38-41): `scripts_dir/name.py` exists
and is a regular file. -/
def script_exists (w : World) (scriptName : String) : Bool :=
  w.entries.any (fun e => e.name == scriptName ++ ".py" && e.isFile)

/-- The not-found result both `execute_script` and `validate_script`
return (runner.py lines 65-70 and 137-142). -/
def notFoundResult (scriptName : String) : ScriptResult :=
  { success := false, output := ""
    error := some ("Script '" ++ scriptName ++ "' not found")
    exit_code := 1 }

/-- `execute_script` (runner.py lines 43-124), branch for branch. -/
def executeScript (w : World) (scriptName : String)
    (env_vars : Option EnvMap) (args : Option (List String)) : ExecTrace :=
  if script_exists w scriptName = false then
    { result := notFoundResult scriptName, spawned := none, infra := some .notFound }
  else
    let script_path := get_script_path w.scriptsDir scriptName
    let exec_env :=
      match env_vars with
      | some o => envUpdate w.osEnviron o
      | none => w.osEnviron
    if envLookup exec_env "NOVA_ACT_API_KEY" = none then
      { result :=
          { success := false, output := ""
            error := some "NOVA_ACT_API_KEY environment variable is required"
            exit_code := 1 }
        spawned := none, infra := some .preconditionFailed }
    else
      let cmd := w.pythonExe :: script_path :: (args.getD [])
      let spec : SpawnSpec :=
        { cmd := cmd, cwd := w.scriptsDir, env := exec_env, timeoutSeconds := 300 }
      match w.spawn spec with
      | .completed rc out err =>
        { result :=
            { success := rc == 0, output := out
              error := if err == "" then none else some err
              exit_code := rc }
          spawned := some spec, infra := none }
      | .timedOut =>
        { result :=
            { success := false, output := ""
              error := some "Script execution timed out after 5 minutes"
              exit_code := 124 }
          spawned := some spec, infra := some .timeout }
      | .raised msg =>
        { result :=
            { success := false, output := ""
              error := some ("Failed to execute script: " ++ msg)
              exit_code := 1 }
          spawned := some spec, infra := some .spawnFailed }

/-- `validate_script` (runner.py lines 126-173), branch for branch. -/
def validateScript (w : World) (scriptName : String) : ValidateTrace :=
  if script_exists w scriptName = false then
    { result := notFoundResult scriptName, readAttempted := false }
  else
    let script_path := get_script_path w.scriptsDir scriptName
    match w.readFile script_path with
    | .ioError msg =>
      { result :=
          { success := false, output := ""
            error := some ("Failed to validate script: " ++ msg)
            exit_code := 1 }
        readAttempted := true }
    | .ok source =>
      match w.parse source with
      | .ok =>
        { result :=
            { success := true
              output := "Script '" ++ scriptName ++ "' syntax is valid"
              error := none, exit_code := 0 }
          readAttempted := true }
      | .syntaxError diag =>
        { result :=
            { success := false, output := ""
              error := some ("Syntax error in script: " ++ diag)
              exit_code := 1 }
          readAttempted := true }
      | .otherError msg =>
        { result :=
            { success := false, output := ""
              error := some ("Failed to validate script: " ++ msg)
              exit_code := 1 }
          readAttempted := true }

/-! ## The CLI env-pair parser (`src/src/cli.py` lines 12-28) -/

/-- Python `str.isspace` on the ASCII whitespace `strip()` removes. -/
def isPyWS (c : Char) : Bool :=
  c = ' ' || c = '\t' || c = '\n' || c = '\r' || c = '\x0b' || c = '\x0c'

def pyStripChars (cs : List Char) : List Char :=
  ((cs.dropWhile isPyWS).reverse.dropWhile isPyWS).reverse

/-- `str.strip()`. -/
def pyStrip (s : String) : String := String.mk (pyStripChars s.data)

/-- `pair.split('=', 1)` when `'=' in pair`: the text before the first `=`
and everything after it; `none` when the token has no `=`. -/
def splitFirstEq : List Char → Option (List Char × List Char)
  | [] => none
  | c :: cs =>
    if c = '=' then some ([], cs)
    else
      match splitFirstEq cs with
      | none => none
      | some (k, v) => some (c :: k, v)

/-- `env_string.split(',')` (empty pieces kept, as Python's `split` with a
separator keeps them). -/
def splitCommaAux (cur : List Char) : List Char → List (List Char)
  | [] => [cur.reverse]
  | c :: cs =>
    if c = ',' then cur.reverse :: splitCommaAux [] cs
    else splitCommaAux (c :: cur) cs

def splitComma (s : String) : List String :=
  (splitCommaAux [] s.data).map String.mk

/-- The parsed mapping together with the tokens the loop warned about. -/
structure EnvParse where
  vars : EnvMap
  warnings : List String
  deriving DecidableEq

/-- The body of `parse_env_vars`'s loop for one comma-separated token:
either a warning for a token without `=`, or an insert of the stripped
key and stripped value. -/
def envStep (acc : EnvParse) (pair : String) : EnvParse :=
  match splitFirstEq pair.data with
  | none => { acc with warnings := acc.warnings ++ [pair] }
  | some (k, v) =>
    { acc with vars := envInsert acc.vars (pyStrip (String.mk k)) (pyStrip (String.mk v)) }

/-- `parse_env_vars` (cli.py lines 12-28). -/
def parse_env_vars (env_string : String) : EnvParse :=
  if env_string = "" then { vars := [], warnings := [] }
  else (splitComma env_string).foldl envStep { vars := [], warnings := [] }

/-- The spawn call `execute_script` builds once both checks have passed
(runner.py lines 88-103): interpreter, script path and verbatim arguments,
the scripts directory as working directory, the merged environment, and
the literal 300-second timeout. -/
def specOf (w : World) (n : String) (e : Option EnvMap) (a : Option (List String)) :
    SpawnSpec :=
  { cmd := w.pythonExe :: get_script_path w.scriptsDir n :: a.getD []
    cwd := w.scriptsDir
    env := envUpdate w.osEnviron (e.getD [])
    timeoutSeconds := 300 }

/-- The merged environment `execute_script` builds (runner.py lines
76-79): a copy of `os.environ` updated with the request's overrides. -/
def mergedEnv (w : World) (e : Option EnvMap) : EnvMap :=
  envUpdate w.osEnviron (e.getD [])

/-- The first character of a string (used to tell the runner's error
messages apart). -/
def firstChar (s : String) : Char := s.data.headD ' '

/-! ## Concrete sample worlds used by witnesses and counterexamples -/

/-- A world holding one script `demo.py`, a credential-free environment,
and a spawn oracle whose child exits cleanly. -/
def wKeyless : World :=
  { scriptsDir := "/app/scripts", scriptsDirExists := true
    entries := [⟨"demo.py", true⟩]
    osEnviron := [("PATH", "/usr/bin")]
    pythonExe := "/usr/bin/python3"
    spawn := fun _ => .completed 0 "" ""
    readFile := fun _ => .ok ""
    parse := fun _ => .ok }

/-- A world with the credential present whose child never exits in time:
every spawn ends in `TimeoutExpired`. -/
def wTimeout : World :=
  { scriptsDir := "/app/scripts", scriptsDirExists := true
    entries := [⟨"demo.py", true⟩]
    osEnviron := [("NOVA_ACT_API_KEY", "k")]
    pythonExe := "/usr/bin/python3"
    spawn := fun _ => .timedOut
    readFile := fun _ => .ok ""
    parse := fun _ => .ok }

/-- A world whose one script has a syntax error. -/
def wBadSyntax : World :=
  { scriptsDir := "/app/scripts", scriptsDirExists := true
    entries := [⟨"bad.py", true⟩]
    osEnviron := []
    pythonExe := "/usr/bin/python3"
    spawn := fun _ => .completed 0 "" ""
    readFile := fun _ => .ok "def f(:"
    parse := fun _ => .syntaxError "invalid syntax (/app/scripts/bad.py, line 1)" }

/-- A world whose scripts directory holds a single regular file named
exactly `.py`. -/
def wDot : World :=
  { scriptsDir := "/app/scripts", scriptsDirExists := true
    entries := [⟨".py", true⟩]
    osEnviron := []
    pythonExe := "/usr/bin/python3"
    spawn := fun _ => .completed 0 "" ""
    readFile := fun _ => .ok ""
    parse := fun _ => .ok }

/-! ## Helper lemmas -/

theorem string_data_append (a b : String) : (a ++ b).data = a.data ++ b.data := rfl

theorem string_eq_of_data {a b : String} (h : a.data = b.data) : a = b := by
  cases a; cases b; exact congrArg String.mk h

theorem envLookup_cons (p : String × String) (m : EnvMap) (k : String) :
    envLookup (p :: m) k = if p.1 = k then some p.2 else envLookup m k := by
  by_cases h : p.1 = k
  · simp [envLookup, List.find?_cons_of_pos, h]
  · simp [envLookup, List.find?_cons_of_neg, h]

theorem envLookup_envInsert_self (m : EnvMap) (k v : String) :
    envLookup (envInsert m k v) k = some v := by
  induction m with
  | nil => simp [envInsert, envLookup_cons]
  | cons p m ih =>
    by_cases hp : p.1 = k
    · simp [envInsert, hp, envLookup_cons]
    · simp [envInsert, hp, envLookup_cons, ih]

theorem envLookup_envInsert_ne (m : EnvMap) (k v k' : String) (h : k' ≠ k) :
    envLookup (envInsert m k v) k' = envLookup m k' := by
  induction m with
  | nil => simp [envInsert, envLookup_cons, Ne.symm h, envLookup]
  | cons p m ih =>
    by_cases hp : p.1 = k
    · simp only [envInsert, hp, beq_iff_eq, if_true, beq_self_eq_true]
      rw [envLookup_cons, envLookup_cons, hp]
      simp [Ne.symm h]
    · simp [envInsert, hp, envLookup_cons, ih]

theorem envLookup_eq_none_of_not_mem (m : EnvMap) (k : String)
    (h : k ∉ m.map Prod.fst) : envLookup m k = none := by
  induction m with
  | nil => rfl
  | cons p m ih =>
    simp only [List.map_cons, List.mem_cons] at h
    push_neg at h
    rw [envLookup_cons]
    simp [Ne.symm h.1]
    exact ih h.2

theorem envLookup_envUpdate (m o : EnvMap) (k : String)
    (h : (o.map Prod.fst).Nodup) :
    envLookup (envUpdate m o) k = overrideWins (envLookup o k) (envLookup m k) := by
  induction o generalizing m with
  | nil => rfl
  | cons p o ih =>
    simp only [List.map_cons, List.nodup_cons] at h
    have step : envUpdate m (p :: o) = envUpdate (envInsert m p.1 p.2) o := rfl
    rw [step, ih _ h.2, envLookup_cons]
    by_cases hk : p.1 = k
    · subst hk
      rw [envLookup_eq_none_of_not_mem o p.1 h.1, envLookup_envInsert_self]
      simp [overrideWins]
    · rw [envLookup_envInsert_ne m p.1 p.2 k (Ne.symm hk)]
      simp [hk]

theorem envUpdate_nil (m : EnvMap) : envUpdate m [] = m := rfl

/-- Big-step characterization of `execute_script`: exactly one of its four
return paths applies, and each determines the whole trace. -/
theorem executeScript_cases (w : World) (n : String) (e : Option EnvMap)
    (a : Option (List String)) :
    (script_exists w n = false ∧
      executeScript w n e a = ⟨notFoundResult n, none, some .notFound⟩) ∨
    (script_exists w n = true ∧ envLookup (mergedEnv w e) "NOVA_ACT_API_KEY" = none ∧
      executeScript w n e a =
        ⟨⟨false, "", some "NOVA_ACT_API_KEY environment variable is required", 1⟩,
          none, some .preconditionFailed⟩) ∨
    (script_exists w n = true ∧ envLookup (mergedEnv w e) "NOVA_ACT_API_KEY" ≠ none ∧
      ((∃ rc out err, w.spawn (specOf w n e a) = .completed rc out err ∧
          executeScript w n e a =
            ⟨⟨rc == 0, out, if err == "" then none else some err, rc⟩,
              some (specOf w n e a), none⟩) ∨
        (w.spawn (specOf w n e a) = .timedOut ∧
          executeScript w n e a =
            ⟨⟨false, "", some "Script execution timed out after 5 minutes", 124⟩,
              some (specOf w n e a), some .timeout⟩) ∨
        (∃ msg, w.spawn (specOf w n e a) = .raised msg ∧
          executeScript w n e a =
            ⟨⟨false, "", some ("Failed to execute script: " ++ msg), 1⟩,
              some (specOf w n e a), some .spawnFailed⟩))) := by
  by_cases h1 : script_exists w n = false
  · exact Or.inl ⟨h1, by simp [executeScript, h1]⟩
  · have h1' : script_exists w n = true := by simpa using h1
    cases e with
    | none =>
      by_cases h2 : envLookup (mergedEnv w none) "NOVA_ACT_API_KEY" = none
      · refine Or.inr (Or.inl ⟨h1', h2, ?_⟩)
        have h2' : envLookup w.osEnviron "NOVA_ACT_API_KEY" = none := h2
        simp [executeScript, h1', h2']
      · refine Or.inr (Or.inr ⟨h1', h2, ?_⟩)
        have h2' : ¬ envLookup w.osEnviron "NOVA_ACT_API_KEY" = none := h2
        cases hsp : w.spawn (specOf w n none a) with
        | completed rc out err =>
          refine Or.inl ⟨rc, out, err, rfl, ?_⟩
          simp only [specOf, Option.getD_none, envUpdate_nil] at hsp
          simp [executeScript, h1', h2', specOf, hsp, envUpdate_nil]
        | timedOut =>
          refine Or.inr (Or.inl ⟨rfl, ?_⟩)
          simp only [specOf, Option.getD_none, envUpdate_nil] at hsp
          simp [executeScript, h1', h2', specOf, hsp, envUpdate_nil]
        | raised msg =>
          refine Or.inr (Or.inr ⟨msg, rfl, ?_⟩)
          simp only [specOf, Option.getD_none, envUpdate_nil] at hsp
          simp [executeScript, h1', h2', specOf, hsp, envUpdate_nil]
    | some o =>
      by_cases h2 : envLookup (mergedEnv w (some o)) "NOVA_ACT_API_KEY" = none
      · refine Or.inr (Or.inl ⟨h1', h2, ?_⟩)
        have h2' : envLookup (envUpdate w.osEnviron o) "NOVA_ACT_API_KEY" = none := h2
        simp [executeScript, h1', h2']
      · refine Or.inr (Or.inr ⟨h1', h2, ?_⟩)
        have h2' : ¬ envLookup (envUpdate w.osEnviron o) "NOVA_ACT_API_KEY" = none := h2
        cases hsp : w.spawn (specOf w n (some o) a) with
        | completed rc out err =>
          refine Or.inl ⟨rc, out, err, rfl, ?_⟩
          simp only [specOf, Option.getD_some] at hsp
          simp [executeScript, h1', h2', specOf, hsp]
        | timedOut =>
          refine Or.inr (Or.inl ⟨rfl, ?_⟩)
          simp only [specOf, Option.getD_some] at hsp
          simp [executeScript, h1', h2', specOf, hsp]
        | raised msg =>
          refine Or.inr (Or.inr ⟨msg, rfl, ?_⟩)
          simp only [specOf, Option.getD_some] at hsp
          simp [executeScript, h1', h2', specOf, hsp]


/-- C1: the child environment passed to the spawned process is the
inherited environment overlaid with the request's overrides (an override
wins on key collision), and when `NOVA_ACT_API_KEY` is absent from that
merged map, `execute_script` returns a failure with exit code 1 without
spawning any process. -/
theorem C1_child_env_merged_and_key_required (w : World) (n : String)
    (e : Option EnvMap) (a : Option (List String)) :
    (∀ spec, (executeScript w n e a).spawned = some spec →
      spec.env = mergedEnv w e) ∧
    (((e.getD []).map Prod.fst).Nodup →
      ∀ k, envLookup (mergedEnv w e) k =
        overrideWins (envLookup (e.getD []) k) (envLookup w.osEnviron k)) ∧
    (envLookup (mergedEnv w e) "NOVA_ACT_API_KEY" = none →
      (executeScript w n e a).spawned = none ∧
      (executeScript w n e a).result.success = false ∧
      (executeScript w n e a).result.exit_code = 1) := by
  refine ⟨?_, ?_, ?_⟩
  · intro spec hs
    rcases executeScript_cases w n e a with ⟨h, he⟩ | ⟨h, hk, he⟩ | ⟨h, hk, hbr⟩
    · rw [he] at hs; simp at hs
    · rw [he] at hs; simp at hs
    · rcases hbr with ⟨rc, out, err, hsp, he⟩ | ⟨hsp, he⟩ | ⟨msg, hsp, he⟩ <;>
      · rw [he] at hs
        simp only [Option.some.injEq] at hs
        rw [← hs]
        rfl
  · intro hnd k
    exact envLookup_envUpdate w.osEnviron (e.getD []) k hnd
  · intro hk
    rcases executeScript_cases w n e a with ⟨h, he⟩ | ⟨h, hk2, he⟩ | ⟨h, hk2, hbr⟩
    · rw [he]; exact ⟨rfl, rfl, rfl⟩
    · rw [he]; exact ⟨rfl, rfl, rfl⟩
    · exact absurd hk hk2

theorem C1_witness :
    (executeScript wKeyless "demo" none none).spawned = none ∧
    (executeScript wKeyless "demo" none none).result.exit_code = 1 := by
  have h := (C1_child_env_merged_and_key_required wKeyless "demo" none none).2.2
    (by decide)
  exact ⟨h.1, h.2.2⟩

/-- C2: across every return path, the success flag is true exactly when
the exit code is zero and no infrastructure error occurred. -/
theorem C2_success_iff_exit_zero_and_no_infra (w : World) (n : String)
    (e : Option EnvMap) (a : Option (List String)) :
    (executeScript w n e a).result.success = true ↔
      ((executeScript w n e a).result.exit_code = 0 ∧
        (executeScript w n e a).infra = none) := by
  rcases executeScript_cases w n e a with ⟨h, he⟩ | ⟨h, hk, he⟩ | ⟨h, hk, hbr⟩
  · rw [he]; simp [notFoundResult]
  · rw [he]; simp
  · rcases hbr with ⟨rc, out, err, hsp, he⟩ | ⟨hsp, he⟩ | ⟨msg, hsp, he⟩ <;> rw [he]
    · simp [beq_iff_eq]
    · simp
    · simp

/-- C3 (amended): the wall-clock timeout is fixed at the literal 300
seconds for every spawn, and when it elapses the result is the
Timeout-kind failure: success false, exit code 124, output discarded. -/
theorem C3_timeout_fixed_at_300 (w : World) (n : String)
    (e : Option EnvMap) (a : Option (List String)) :
    (∀ spec, (executeScript w n e a).spawned = some spec →
      spec.timeoutSeconds = 300) ∧
    (∀ spec, (executeScript w n e a).spawned = some spec →
      w.spawn spec = .timedOut →
      (executeScript w n e a).result =
        ⟨false, "", some "Script execution timed out after 5 minutes", 124⟩ ∧
      (executeScript w n e a).infra = some .timeout) := by
  constructor
  · intro spec hs
    rcases executeScript_cases w n e a with ⟨h, he⟩ | ⟨h, hk, he⟩ | ⟨h, hk, hbr⟩
    · rw [he] at hs; simp at hs
    · rw [he] at hs; simp at hs
    · rcases hbr with ⟨rc, out, err, hsp, he⟩ | ⟨hsp, he⟩ | ⟨msg, hsp, he⟩ <;>
      · rw [he] at hs
        simp only [Option.some.injEq] at hs
        rw [← hs]
        rfl
  · intro spec hs htime
    rcases executeScript_cases w n e a with ⟨h, he⟩ | ⟨h, hk, he⟩ | ⟨h, hk, hbr⟩
    · rw [he] at hs; simp at hs
    · rw [he] at hs; simp at hs
    · rcases hbr with ⟨rc, out, err, hsp, he⟩ | ⟨hsp, he⟩ | ⟨msg, hsp, he⟩ <;>
        rw [he] at hs <;> simp only [Option.some.injEq] at hs <;> rw [← hs] at htime
      · rw [hsp] at htime; cases htime
      · rw [he]; exact ⟨rfl, rfl⟩
      · rw [hsp] at htime; cases htime

theorem C3_counterexample_timeout_never_configurable :
    ¬ ∃ (w : World) (n : String) (e : Option EnvMap) (a : Option (List String))
        (spec : SpawnSpec),
      (executeScript w n e a).spawned = some spec ∧ spec.timeoutSeconds ≠ 300 := by
  rintro ⟨w, n, e, a, spec, hs, hne⟩
  rcases executeScript_cases w n e a with ⟨h, he⟩ | ⟨h, hk, he⟩ | ⟨h, hk, hbr⟩
  · rw [he] at hs; simp at hs
  · rw [he] at hs; simp at hs
  · rcases hbr with ⟨rc, out, err, hsp, he⟩ | ⟨hsp, he⟩ | ⟨msg, hsp, he⟩ <;>
    · rw [he] at hs
      simp only [Option.some.injEq] at hs
      exact hne (by rw [← hs]; rfl)

theorem C3_witness :
    (executeScript wTimeout "demo" none none).result =
      ⟨false, "", some "Script execution timed out after 5 minutes", 124⟩ := by
  have h := (C3_timeout_fixed_at_300 wTimeout "demo" none none).2
    (specOf wTimeout "demo" none none) (by decide) (by decide)
  exact h.1

/-- C5: a name the catalog does not hold makes both `execute_script` and
`validate_script` return the NotFound failure (success false, exit code 1,
a not-found message), with no process spawned and no file read. -/
theorem C5_not_found_no_spawn_no_read (w : World) (n : String)
    (e : Option EnvMap) (a : Option (List String))
    (h : script_exists w n = false) :
    (executeScript w n e a).result = notFoundResult n ∧
    (executeScript w n e a).spawned = none ∧
    (executeScript w n e a).infra = some .notFound ∧
    (validateScript w n).result = notFoundResult n ∧
    (validateScript w n).readAttempted = false := by
  have he : executeScript w n e a = ⟨notFoundResult n, none, some .notFound⟩ := by
    simp [executeScript, h]
  have hv : validateScript w n = ⟨notFoundResult n, false⟩ := by
    simp [validateScript, h]
  rw [he, hv]
  exact ⟨rfl, rfl, rfl, rfl, rfl⟩

theorem C5_witness :
    (executeScript wKeyless "ghost" none none).spawned = none ∧
    (validateScript wKeyless "ghost").readAttempted = false := by
  have h := C5_not_found_no_spawn_no_read wKeyless "ghost" none none (by decide)
  exact ⟨h.2.1, h.2.2.2.2⟩

theorem firstChar_append_of_cons (s : String) (c : Char) (cs : List Char)
    (h : s.data = c :: cs) (t : String) : firstChar (s ++ t) = c := by
  simp [firstChar, string_data_append, h]

/-- C6: a failed parse of an existing script yields success false with the
parser diagnostic carried verbatim inside the error text, and an I/O
failure while reading yields a distinct failure message, never the
syntax-error one. -/
theorem C6_parse_and_io_failures_distinct (w : World) (n : String)
    (hex : script_exists w n = true) :
    (∀ src diag, w.readFile (get_script_path w.scriptsDir n) = .ok src →
      w.parse src = .syntaxError diag →
      (validateScript w n).result =
        ⟨false, "", some ("Syntax error in script: " ++ diag), 1⟩) ∧
    (∀ msg, w.readFile (get_script_path w.scriptsDir n) = .ioError msg →
      (validateScript w n).result =
        ⟨false, "", some ("Failed to validate script: " ++ msg), 1⟩) ∧
    (∀ diag msg, ("Syntax error in script: " ++ diag : String) ≠
      "Failed to validate script: " ++ msg) := by
  refine ⟨?_, ?_, ?_⟩
  · intro src diag hread hparse
    simp [validateScript, hex, hread, hparse]
  · intro msg hread
    simp [validateScript, hex, hread]
  · intro diag msg h
    have h1 : firstChar ("Syntax error in script: " ++ diag) = 'S' :=
      firstChar_append_of_cons "Syntax error in script: " 'S'
        ("yntax error in script: ").data (by decide) diag
    have h2 : firstChar ("Failed to validate script: " ++ msg) = 'F' :=
      firstChar_append_of_cons "Failed to validate script: " 'F'
        ("ailed to validate script: ").data (by decide) msg
    rw [h] at h1
    rw [h2] at h1
    exact absurd h1 (by decide)

theorem C6_witness :
    (validateScript wBadSyntax "bad").result =
      ⟨false, "",
        some "Syntax error in script: invalid syntax (/app/scripts/bad.py, line 1)",
        1⟩ := by
  have h := (C6_parse_and_io_failures_distinct wBadSyntax "bad" (by decide)).1
    "def f(:" "invalid syntax (/app/scripts/bad.py, line 1)" (by decide) (by decide)
  rw [h]
  decide


/-- C4 evidence: a well-formed name resolves inside the root, but a name
with a `..` segment or an absolute name escapes it. -/
theorem C4_traversal_escapes_root :
    staysInsideRoot "/app/scripts" (get_script_path "/app/scripts" "good_script") = true ∧
    staysInsideRoot "/app/scripts" (get_script_path "/app/scripts" "../evil") = false ∧
    staysInsideRoot "/app/scripts" (get_script_path "/app/scripts" "/etc/passwd") = false := by
  decide

/-- C8: the two examples of env-pair parsing. -/
theorem C8_env_pair_parsing_examples :
    parse_env_vars "A=1,B=2" = ⟨[("A", "1"), ("B", "2")], []⟩ ∧
    parse_env_vars "A=1,garbage,B=2" = ⟨[("A", "1"), ("B", "2")], ["garbage"]⟩ := by
  decide

theorem splitFirstEq_append (xs ys : List Char) (h : '=' ∉ xs) :
    splitFirstEq (xs ++ '=' :: ys) = some (xs, ys) := by
  induction xs with
  | nil => simp [splitFirstEq]
  | cons c cs ih =>
    simp only [List.mem_cons, not_or] at h
    simp [splitFirstEq, Ne.symm h.1, ih h.2]

theorem splitFirstEq_eq_none (t : List Char) (h : '=' ∉ t) : splitFirstEq t = none := by
  induction t with
  | nil => rfl
  | cons c cs ih =>
    simp only [List.mem_cons, not_or] at h
    simp [splitFirstEq, Ne.symm h.1, ih h.2]

/-- C10: a token is split only at its first `=` (so values may contain
`=`), key and value are stripped of surrounding whitespace, and a token
with no `=` at all is the one malformed shape, warned about and skipped. -/
theorem C10_env_pair_first_eq_and_strip :
    (∀ (acc : EnvParse) (pre post : String), '=' ∉ pre.data →
      envStep acc (pre ++ "=" ++ post) =
        { acc with vars := envInsert acc.vars (pyStrip pre) (pyStrip post) }) ∧
    (∀ (acc : EnvParse) (t : String), '=' ∉ t.data →
      envStep acc t = { acc with warnings := acc.warnings ++ [t] }) ∧
    parse_env_vars "A=b=c" = ⟨[("A", "b=c")], []⟩ ∧
    parse_env_vars " A = 1 " = ⟨[("A", "1")], []⟩ := by
  refine ⟨?_, ?_, by decide, by decide⟩
  · intro acc pre post h
    have hd : (pre ++ "=" ++ post).data = pre.data ++ '=' :: post.data := by
      simp [string_data_append]
    simp [envStep, hd, splitFirstEq_append pre.data post.data h]
  · intro acc t h
    simp [envStep, splitFirstEq_eq_none t.data h]

theorem C10_witness :
    envStep ⟨[], []⟩ " A = b=c " = ⟨[("A", "b=c")], []⟩ := by
  have h := (C10_env_pair_first_eq_and_strip).1 ⟨[], []⟩ " A " " b=c "
    (by decide)
  rw [show (" A " ++ "=" ++ " b=c " : String) = " A = b=c " from by decide] at h
  rw [h]
  decide

theorem lastDotIdx_append_py (xs : List Char) :
    lastDotIdx (xs ++ ['.', 'p', 'y']) = some xs.length := by
  induction xs with
  | nil => rfl
  | cons c cs ih => simp [lastDotIdx, ih]

theorem stemChars_append_py (xs : List Char) (h : xs ≠ []) :
    stemChars (xs ++ ['.', 'p', 'y']) = xs := by
  have hcond : 0 < xs.length ∧ xs.length < (xs ++ ['.', 'p', 'y']).length - 1 := by
    have hlen : 0 < xs.length := List.length_pos.mpr h
    simp [List.length_append]
    omega
  simp only [stemChars, lastDotIdx_append_py]
  rw [if_pos hcond]
  exact List.take_left xs ['.', 'p', 'y']

theorem endsWithPy_iff (cs : List Char) :
    endsWithPy cs = true ↔ ∃ xs, cs = xs ++ ['.', 'p', 'y'] := by
  constructor
  · intro h
    unfold endsWithPy at h
    split at h
    · rename_i rest hrev
      refine ⟨rest.reverse, ?_⟩
      rw [← List.reverse_reverse cs, hrev]
      simp
    · cases h
  · rintro ⟨xs, rfl⟩
    unfold endsWithPy
    simp [List.reverse_append]

theorem mem_list_scripts_iff (w : World) (name : String) :
    name ∈ list_scripts w ↔
      (w.scriptsDirExists = true ∧ ∃ e ∈ w.entries,
        (endsWithPy e.name.data && e.isFile && !startsWithDunder e.name) = true ∧
        pyStem e.name = name) := by
  unfold list_scripts
  by_cases hd : w.scriptsDirExists = false
  · simp [hd]
  · have hd' : w.scriptsDirExists = true := by simpa using hd
    rw [if_neg hd]
    simp only [List.mem_map, List.mem_filter]
    constructor
    · rintro ⟨e, ⟨hme, hpred⟩, hstem⟩
      exact ⟨hd', e, hme, hpred, hstem⟩
    · rintro ⟨-, e, hme, hpred, hstem⟩
      exact ⟨e, ⟨hme, hpred⟩, hstem⟩

/-- C7 (amended): for a name other than `""` and the pathological `".py"`,
membership in `list_scripts` is exactly "the file `name + '.py'` is a
regular file not starting with `__`", and in particular every such listed
name exists. -/
theorem C7_list_and_exists_agree (w : World) (name : String)
    (hwf : w.scriptsDirExists = false → w.entries = [])
    (h1 : name ≠ "") (h2 : name ≠ ".py") :
    (name ∈ list_scripts w ↔
      (script_exists w name = true ∧ startsWithDunder (name ++ ".py") = false)) ∧
    (name ∈ list_scripts w → script_exists w name = true) := by
  have main : name ∈ list_scripts w ↔
      (script_exists w name = true ∧ startsWithDunder (name ++ ".py") = false) := by
    constructor
    · intro hm
      rw [mem_list_scripts_iff] at hm
      obtain ⟨hd, e, hme, hpred, hstem⟩ := hm
      simp only [Bool.and_eq_true, Bool.not_eq_true'] at hpred
      obtain ⟨⟨hpy, hfile⟩, hdun⟩ := hpred
      obtain ⟨xs, hxs⟩ := (endsWithPy_iff e.name.data).mp hpy
      by_cases hnil : xs = []
      · exfalso
        apply h2
        rw [← hstem]
        unfold pyStem
        rw [hxs, hnil]
        decide
      · have hstem2 : stemChars e.name.data = xs := by
          rw [hxs]; exact stemChars_append_py xs hnil
        have hnd : name.data = xs := by
          rw [← hstem]
          unfold pyStem
          rw [hstem2]
        have hename : e.name = name ++ ".py" := by
          apply string_eq_of_data
          rw [string_data_append, hxs, hnd]
        constructor
        · unfold script_exists
          rw [List.any_eq_true]
          refine ⟨e, hme, ?_⟩
          rw [hename]
          simp [hfile]
        · rw [← hename]
          exact hdun
    · rintro ⟨hex, hdun⟩
      unfold script_exists at hex
      rw [List.any_eq_true] at hex
      obtain ⟨e, hme, hpe⟩ := hex
      simp only [Bool.and_eq_true, beq_iff_eq] at hpe
      obtain ⟨hename, hfile⟩ := hpe
      rw [mem_list_scripts_iff]
      have hd : w.scriptsDirExists = true := by
        by_contra hc
        have hnil : w.entries = [] := hwf (by simpa using hc)
        rw [hnil] at hme
        exact absurd hme (List.not_mem_nil e)
      have hnnil : name.data ≠ [] := by
        intro hc
        exact h1 (string_eq_of_data (by rw [hc]))
      refine ⟨hd, e, hme, ?_, ?_⟩
      · rw [hename]
        simp only [Bool.and_eq_true, Bool.not_eq_true']
        refine ⟨⟨?_, hfile⟩, hdun⟩
        rw [string_data_append]
        exact (endsWithPy_iff _).mpr ⟨name.data, rfl⟩
      · rw [hename]
        unfold pyStem
        rw [show ((name ++ ".py" : String)).data = name.data ++ ['.', 'p', 'y'] from
          string_data_append name ".py"]
        rw [stemChars_append_py name.data hnnil]
  exact ⟨main, fun hm => (main.mp hm).1⟩

theorem C7_witness :
    "demo" ∈ list_scripts wKeyless ∧ script_exists wKeyless "demo" = true := by
  have h := C7_list_and_exists_agree wKeyless "demo" (by decide) (by decide) (by decide)
  have hm : "demo" ∈ list_scripts wKeyless := by decide
  exact ⟨hm, h.2 hm⟩

theorem C7_counterexample_dotfile :
    ".py" ∈ list_scripts wDot ∧ script_exists wDot ".py" = false := by
  decide

end NovaAct
